import Mathlib

/-!
Shallow embedding of the trust-and-consistency core of the xKARASb/blog
backend: the post/image services (internal/core/service), the Postgres
repository adapter (internal/core/repository/postgres.go), the MinIO
object-store adapter (internal/core/repository/minio.go), and the auth
HTTP handler (internal/transport/http/handlers).  Machine state
(relational rows, object-store contents) is explicit and threaded
through each operation; fallible Go calls return Except values.
-/

namespace Blog

/-- Opaque identifiers (google/uuid values) are modelled as naturals. -/
abbrev UUID := Nat

/-- Timestamps are modelled as naturals (seconds). -/
abbrev Timestamp := Nat

/-- User roles, from pkg/types (Author, Reader). -/
inductive Role
| author
| reader
deriving DecidableEq, Repr

/-- Post status, from pkg/types (Draft, Published). -/
inductive PostStatus
| draft
| published
deriving DecidableEq, Repr

/-- Error taxonomy of pkg/errors plus the driver-level signals the code
inspects: noRows stands for sql.ErrNoRows, storeFailure for any opaque
store or network error that is passed through unclassified. -/
inductive Err
| userAlreadyExists
| emailNotExist
| badRole
| invalidToken
| keyIdempotencyAlreadyUsed
| noAccess
| incorrectData
| noRows
| storeFailure
deriving DecidableEq, Repr

/-- Row of the posts table (dto.PostDB). -/
structure PostDB where
  postId : UUID
  authorId : UUID
  idempotencyKey : String
  title : String
  content : String
  createdAt : Timestamp
  updatedAt : Timestamp
  status : PostStatus
deriving DecidableEq, Repr

/-- Row of the images table (dto.ImageDB). -/
structure ImageDB where
  imageId : UUID
  postId : UUID
  imageUrl : String
  createdAt : Timestamp
deriving DecidableEq, Repr

/-- Relational store state: the posts and images tables, each a list of
rows in insertion order (SELECT without ORDER BY is modelled as
first-match lookup). -/
structure Store where
  posts : List PostDB
  images : List ImageDB
deriving DecidableEq, Repr

/-- Object-store state: the set of object names currently stored in the
bucket, as a list. -/
structure BlobStore where
  objects : List String
deriving DecidableEq, Repr

/-- Request dto.CreatePostRequest. -/
structure CreatePostRequest where
  idempotencyKey : String
  title : String
  content : String
deriving DecidableEq, Repr

/-- Response dto.CreatePostResponse. -/
structure CreatePostResponse where
  postId : UUID
deriving DecidableEq, Repr

/-- Request dto.EditPostRequest. -/
structure EditPostRequest where
  title : String
  content : String
deriving DecidableEq, Repr

/-- Response dto.EditPostResponse. -/
structure EditPostResponse where
  postId : UUID
  authorId : UUID
  idempotencyKey : String
  title : String
  content : String
  status : PostStatus
  createdAt : Timestamp
  updatedAt : Timestamp
deriving DecidableEq, Repr

/-- Request dto.PublishPostRequest. -/
structure PublishPostRequest where
  status : PostStatus
deriving DecidableEq, Repr

/-- Response dto.PublishPostResponse. -/
structure PublishPostResponse where
  postId : UUID
deriving DecidableEq, Repr

/-- Response dto.AddImageResponse. -/
structure AddImageResponse where
  imageId : UUID
  imageUrl : String
deriving DecidableEq, Repr

/-- Response dto.DeleteImageResponse. -/
structure DeleteImageResponse where
  imageId : UUID
deriving DecidableEq, Repr

namespace PostgresRepository

/-- SELECT * FROM posts WHERE idempotency_key = $1 via DB.Get: first
matching row, or sql.ErrNoRows. -/
def GetPostByIdempotencyKey (s : Store) (key : String) : Except Err PostDB :=
  match s.posts.find? (fun p => p.idempotencyKey == key) with
  | some p => Except.ok p
  | none => Except.error Err.noRows

/-- INSERT INTO posts (author_id, idempotency_key, title, content)
RETURNING *.  The schema gives status DEFAULT draft and created_at =
updated_at = CURRENT_TIMESTAMP (the now argument); post_id is the
freshly generated newId.  A unique-constraint violation (pq error
23505, on idempotency_key or the primary key) is translated by the Go
adapter to ErrorRepositoryUserAlreadyExsist. -/
def CreatePost (s : Store) (newId : UUID) (now : Timestamp)
    (authorId : UUID) (idempotencyKey title content : String) :
    Except Err (PostDB × Store) :=
  if s.posts.any (fun p => p.idempotencyKey == idempotencyKey || p.postId == newId) then
    Except.error Err.userAlreadyExists
  else
    let row : PostDB :=
      ⟨newId, authorId, idempotencyKey, title, content, now, now, PostStatus.draft⟩
    Except.ok (row, { s with posts := s.posts ++ [row] })

/-- SELECT * FROM posts WHERE post_id = $1 via DB.Get. -/
def GetPostById (s : Store) (id : UUID) : Except Err PostDB :=
  match s.posts.find? (fun p => p.postId == id) with
  | some p => Except.ok p
  | none => Except.error Err.noRows

/-- Row image of UPDATE posts SET title = $2, content = $3, status = $4:
only those three columns are written; created_at and updated_at are not
touched (the schema defines no update trigger). -/
def updatePostRow (row : PostDB) (title content : String) (status : PostStatus) : PostDB :=
  { row with title := title, content := content, status := status }

/-- UPDATE posts SET title = $2, content = $3, status = $4 WHERE
post_id = $1 RETURNING * via DB.Get: updates every matching row,
returns the first one, sql.ErrNoRows when none matches. -/
def UpdatePost (s : Store) (id : UUID) (title content : String) (status : PostStatus) :
    Except Err (PostDB × Store) :=
  match s.posts.find? (fun p => p.postId == id) with
  | some p =>
      Except.ok (updatePostRow p title content status,
        { s with posts :=
            s.posts.map fun q =>
              if q.postId == id then updatePostRow q title content status else q })
  | none => Except.error Err.noRows

/-- INSERT INTO images (image_id, post_id, image_url) RETURNING *.
A 23505 violation (duplicate image_id) is translated to
ErrorRepositoryUserAlreadyExsist; the ok flag injects any other opaque
store failure the driver may report. -/
def CreateImage (s : Store) (ok : Bool) (imageId postId : UUID)
    (imageUrl : String) (now : Timestamp) : Except Err (ImageDB × Store) :=
  if !ok then Except.error Err.storeFailure
  else if s.images.any (fun i => i.imageId == imageId) then
    Except.error Err.userAlreadyExists
  else
    let row : ImageDB := ⟨imageId, postId, imageUrl, now⟩
    Except.ok (row, { s with images := s.images ++ [row] })

/-- DELETE FROM images WHERE image_id = $1 RETURNING * via DB.Get: the
deletion is keyed on image_id alone (no post_id condition).  The ok
flag injects an opaque store failure, in which case nothing is
deleted. -/
def DeleteImage (s : Store) (ok : Bool) (imageId : UUID) :
    Except Err (ImageDB × Store) :=
  if !ok then Except.error Err.storeFailure
  else
    match s.images.find? (fun i => i.imageId == imageId) with
    | some img =>
        Except.ok (img, { s with images := s.images.filter (fun i => !(i.imageId == imageId)) })
    | none => Except.error Err.noRows

end PostgresRepository

namespace MinIORepository

/-- Bucket name held by the MinIO client configuration. -/
def bucket : String := "images"

/-- PutObject followed by the locator format of minio.go
(Sprintf of slash, bucket, slash, objectName); the ok flag injects an
upload failure, in which case no object is stored. -/
def PutImage (b : BlobStore) (ok : Bool) (objectName : String) :
    Except Err (String × BlobStore) :=
  if ok then Except.ok ("/" ++ bucket ++ "/" ++ objectName, ⟨objectName :: b.objects⟩)
  else Except.error Err.storeFailure

/-- RemoveObject on the bucket; the ok flag injects a deletion failure,
in which case the object is untouched. -/
def DeleteImage (b : BlobStore) (ok : Bool) (objectName : String) :
    Except Err BlobStore :=
  if ok then Except.ok ⟨b.objects.filter (fun o => !(o == objectName))⟩
  else Except.error Err.storeFailure

end MinIORepository

namespace ReaderService

/-- ReaderService.NewPost.  It performs two repository calls: a lookup
by idempotency key, then the insert.  Because concurrent requests may
commit between the two calls, the insert runs against env s, where env
is the interference of concurrently committed writers (identity when
the request runs alone).  If the lookup finds a post the service fails
with ErrorKeyIdempotencyAlreadyUsed without consulting the requester;
every error of the insert, including the unique-violation translation
ErrorRepositoryUserAlreadyExsist, is forwarded to the caller
unchanged. -/
def NewPost (env : Store → Store) (s : Store) (newId : UUID) (now : Timestamp)
    (authorId : UUID) (req : CreatePostRequest) :
    Except Err CreatePostResponse × Store :=
  match PostgresRepository.GetPostByIdempotencyKey s req.idempotencyKey with
  | Except.ok _ => (Except.error Err.keyIdempotencyAlreadyUsed, s)
  | Except.error e =>
    if e ≠ Err.noRows then (Except.error e, s)
    else
      match PostgresRepository.CreatePost (env s) newId now authorId
          req.idempotencyKey req.title req.content with
      | Except.error e2 => (Except.error e2, env s)
      | Except.ok (row, s1) => (Except.ok ⟨row.postId⟩, s1)

end ReaderService

namespace PosterService

/-- PosterService.getPostAuthor: loads the post by id and fails with
ErrorServiceNoAccess when its author is not the requesting user. -/
def getPostAuthor (s : Store) (userId postId : UUID) : Except Err PostDB :=
  match PostgresRepository.GetPostById s postId with
  | Except.error e => Except.error e
  | Except.ok postDB =>
      if postDB.authorId ≠ userId then Except.error Err.noAccess
      else Except.ok postDB

/-- PosterService.EditPost: ownership check, then UpdatePost writing the
requested title and content and writing back the stored status. -/
def EditPost (s : Store) (userId postId : UUID) (req : EditPostRequest) :
    Except Err EditPostResponse × Store :=
  match getPostAuthor s userId postId with
  | Except.error e => (Except.error e, s)
  | Except.ok postDB =>
    match PostgresRepository.UpdatePost s postId req.title req.content postDB.status with
    | Except.error e => (Except.error e, s)
    | Except.ok (row, s1) =>
        (Except.ok ⟨row.postId, row.authorId, row.idempotencyKey, row.title,
          row.content, row.status, row.createdAt, row.updatedAt⟩, s1)

/-- PosterService.PublishPost: ownership check, then the requested
status must be exactly published (else ErrorServiceIncorrectData),
then UpdatePost writing back the stored title and content with the
requested status. -/
def PublishPost (s : Store) (userId postId : UUID) (req : PublishPostRequest) :
    Except Err PublishPostResponse × Store :=
  match getPostAuthor s userId postId with
  | Except.error e => (Except.error e, s)
  | Except.ok postDB =>
    if req.status ≠ PostStatus.published then (Except.error Err.incorrectData, s)
    else
      match PostgresRepository.UpdatePost s postId postDB.title postDB.content req.status with
      | Except.error e => (Except.error e, s)
      | Except.ok (row, s1) => (Except.ok ⟨row.postId⟩, s1)

/-- Object name under which the blob of an image is stored:
imageId.String() in the Go code. -/
def objectNameOf (imageId : UUID) : String := toString imageId

/-- PosterService.AddImage: ownership check, fresh imageId, upload the
blob under objectNameOf imageId, and only on upload success insert the
metadata row referencing the returned locator.  When the insert fails
after a successful upload the error is returned as is and no
compensating blob deletion is attempted. -/
def AddImage (s : Store) (b : BlobStore) (putOk insertOk : Bool)
    (userId postId imageId : UUID) (now : Timestamp) :
    Except Err AddImageResponse × Store × BlobStore :=
  match getPostAuthor s userId postId with
  | Except.error e => (Except.error e, s, b)
  | Except.ok _ =>
    match MinIORepository.PutImage b putOk (objectNameOf imageId) with
    | Except.error e => (Except.error e, s, b)
    | Except.ok (link, b1) =>
      match PostgresRepository.CreateImage s insertOk imageId postId link now with
      | Except.error e => (Except.error e, s, b1)
      | Except.ok (row, s1) => (Except.ok ⟨row.imageId, link⟩, s1, b1)

/-- PosterService.DeleteImage: ownership check against the named post,
then delete the metadata row by image id alone, then delete the blob.
A failed row deletion leaves both stores untouched; a failed blob
deletion after the row is gone leaves the row deleted. -/
def DeleteImage (s : Store) (b : BlobStore) (rowOk blobOk : Bool)
    (userId postId imageId : UUID) :
    Except Err DeleteImageResponse × Store × BlobStore :=
  match getPostAuthor s userId postId with
  | Except.error e => (Except.error e, s, b)
  | Except.ok _ =>
    match PostgresRepository.DeleteImage s rowOk imageId with
    | Except.error e => (Except.error e, s, b)
    | Except.ok (_, s1) =>
      match MinIORepository.DeleteImage b blobOk (objectNameOf imageId) with
      | Except.error e => (Except.error e, s1, b)
      | Except.ok b1 => (Except.ok ⟨imageId⟩, s1, b1)

end PosterService

/-- One operation of the post core, as dispatched by the HTTP layer.
Creation runs without concurrent interference here (the identity
environment), since the state machine of Post.status is about the
operations of this core alone. -/
inductive Op
| create (newId : UUID) (now : Timestamp) (authorId : UUID) (req : CreatePostRequest)
| edit (userId postId : UUID) (req : EditPostRequest)
| publish (userId postId : UUID) (req : PublishPostRequest)

/-- Effect of one post operation on the relational store. -/
def applyOp (s : Store) : Op → Store
| Op.create newId now authorId req => (ReaderService.NewPost id s newId now authorId req).2
| Op.edit userId postId req => (PosterService.EditPost s userId postId req).2
| Op.publish userId postId req => (PosterService.PublishPost s userId postId req).2

/-- Refresh token as validated and stored by the auth core: the
identity it was minted for, a freshness nonce distinguishing successive
issues, and the signed expiry.  The database column stores its string
serialization, which we abstract. -/
structure RefreshTok where
  identity : UUID
  nonce : Nat
  expiry : Timestamp
deriving DecidableEq, Repr

/-- Row of the users table (dto.UserDB), with the refresh-token column
held in its structured form. -/
structure AuthUser where
  userId : UUID
  email : String
  passwordHash : String
  role : Role
  refreshToken : RefreshTok
  refreshTokenExpiryTime : Timestamp
deriving DecidableEq, Repr

/-- Auth-side store state: the users table plus the issuance counter
supplying fresh token nonces (successive signed tokens differ). -/
structure AuthState where
  users : List AuthUser
  nextNonce : Nat
deriving DecidableEq, Repr

/-- Result of a successful login: the identity and the freshly issued
refresh token (dto.LoginUserResponse; the stateless access token is
omitted). -/
structure LoginResult where
  userId : UUID
  refreshTok : RefreshTok
deriving DecidableEq, Repr

namespace AuthService

/-- Refresh-token lifetime (7 days, in seconds), from the design
default. -/
def refreshTTL : Nat := 7 * 24 * 60 * 60

/-- SELECT * FROM users WHERE email = $1 via DB.Get. -/
def findUserByEmail (st : AuthState) (email : String) : Option AuthUser :=
  st.users.find? (fun u => u.email == email)

/-- UPDATE users SET refresh_token = $2 WHERE user_id = $1 RETURNING *:
overwrites the stored token of every matching row, sql.ErrNoRows when
none matches. -/
def UpdateRefreshToken (st : AuthState) (id : UUID) (tok : RefreshTok) :
    Except Err AuthState :=
  if st.users.any (fun u => u.userId == id) then
    let rows := st.users.map fun u =>
      if u.userId == id then { u with refreshToken := tok } else u
    Except.ok { st with users := rows }
  else Except.error Err.noRows

/-- SELECT refresh_token FROM users WHERE user_id = $1 via DB.Get. -/
def GetRefreshToken (st : AuthState) (id : UUID) : Except Err RefreshTok :=
  match st.users.find? (fun u => u.userId == id) with
  | some u => Except.ok u.refreshToken
  | none => Except.error Err.noRows

/-- Modelled from the spec: AuthService.LoginUser is not among the
provided sources (only its interface, handler and tests are).  Per
section 4.2 it fails with EmailNotExist when no row matches the email,
fails with the same class of error when the password hash does not
match (hashCheck abstracts the salted one-way comparison), and on
success issues a fresh token pair and overwrites the stored refresh
token via the repository's UpdateRefreshToken. -/
def LoginUser (hashCheck : String → String → Bool) (st : AuthState)
    (now : Timestamp) (email password : String) :
    Except Err LoginResult × AuthState :=
  match findUserByEmail st email with
  | none => (Except.error Err.emailNotExist, st)
  | some u =>
    if !hashCheck u.passwordHash password then (Except.error Err.emailNotExist, st)
    else
      let tok : RefreshTok := ⟨u.userId, st.nextNonce, now + refreshTTL⟩
      match UpdateRefreshToken st u.userId tok with
      | Except.error e => (Except.error e, st)
      | Except.ok st1 => (Except.ok ⟨u.userId, tok⟩, { st1 with nextNonce := st.nextNonce + 1 })

/-- Modelled from the spec: AuthService.RefreshToken is not among the
provided sources (only its interface, handler and tests are).  Per
sections 4.2 and 8 it fails with InvalidToken when the token is
expired, when the identity it claims has no row, or when it differs
from the token currently stored for that identity (the stored-match
read and the rotation overwrite follow GetRefreshToken and
UpdateRefreshToken of postgres.go); on success it rotates by
overwriting the stored token with a freshly issued one. -/
def RefreshToken (st : AuthState) (now : Timestamp) (tok : RefreshTok) :
    Except Err RefreshTok × AuthState :=
  if tok.expiry < now then (Except.error Err.invalidToken, st)
  else
    match GetRefreshToken st tok.identity with
    | Except.error _ => (Except.error Err.invalidToken, st)
    | Except.ok stored =>
      if stored ≠ tok then (Except.error Err.invalidToken, st)
      else
        let newTok : RefreshTok := ⟨tok.identity, st.nextNonce, now + refreshTTL⟩
        match UpdateRefreshToken st tok.identity newTok with
        | Except.error e => (Except.error e, st)
        | Except.ok st1 => (Except.ok newTok, { st1 with nextNonce := st.nextNonce + 1 })

end AuthService

/-- Observable HTTP outcome of a handler: status code and error body,
or status code and structured success payload. -/
inductive HttpOut
| fail (status : Nat) (body : String)
| ok (status : Nat) (resp : LoginResult)
deriving DecidableEq, Repr

namespace AuthController

/-- AuthController.LoginHandler: runs the service and maps
ErrorRepositoryEmailNotExsist to 403 with the fixed body used for both
unknown email and wrong password; any other service error becomes 502
carrying that error; success is 200 with the token payload. -/
def LoginHandler (hashCheck : String → String → Bool) (st : AuthState)
    (now : Timestamp) (email password : String) : HttpOut :=
  match (AuthService.LoginUser hashCheck st now email password).1 with
  | Except.error e =>
      if e = Err.emailNotExist then HttpOut.fail 403 "Email or password incorrect\n"
      else HttpOut.fail 502 (toString (repr e))
  | Except.ok r => HttpOut.ok 200 r

end AuthController

section Helpers

/-- Finding by a key is unaffected by mapping a key-preserving update
over the list. -/
lemma find?_map_of_key {α : Type} (key : α → Nat) (f : α → α)
    (hf : ∀ a, key (f a) = key a) (l : List α) (k : Nat) :
    (l.map f).find? (fun a => key a == k) = (l.find? (fun a => key a == k)).map f := by
  rw [List.find?_map]
  have hp : ((fun a => key a == k) ∘ f) = fun a => key a == k := by
    funext a
    simp [Function.comp, hf]
  rw [hp]

/-- Lookup of the row produced by getPostAuthor for an owning user. -/
lemma getPostAuthor_owner (s : Store) (userId postId : UUID) (p : PostDB)
    (hfind : s.posts.find? (fun q => q.postId == postId) = some p)
    (hown : p.authorId = userId) :
    PosterService.getPostAuthor s userId postId = Except.ok p := by
  unfold PosterService.getPostAuthor PostgresRepository.GetPostById
  rw [hfind]
  simp [hown]

/-- Rejection by getPostAuthor for a non-owning user. -/
lemma getPostAuthor_not_owner (s : Store) (userId postId : UUID) (p : PostDB)
    (hfind : s.posts.find? (fun q => q.postId == postId) = some p)
    (hown : p.authorId ≠ userId) :
    PosterService.getPostAuthor s userId postId = Except.error Err.noAccess := by
  unfold PosterService.getPostAuthor PostgresRepository.GetPostById
  rw [hfind]
  simp [hown]

end Helpers

/-- C3: for an owning author and a requested status other than
published, PublishPost fails with IncorrectData and the relational
store — the stored post row in particular — is unchanged: the status
check precedes the update, so the operation cannot move a post back to
draft. -/
theorem publish_non_published_fails_unchanged
    (s : Store) (userId postId : UUID) (req : PublishPostRequest) (p : PostDB)
    (hfind : s.posts.find? (fun q => q.postId == postId) = some p)
    (hown : p.authorId = userId)
    (hst : req.status ≠ PostStatus.published) :
    PosterService.PublishPost s userId postId req = (Except.error Err.incorrectData, s) := by
  unfold PosterService.PublishPost
  rw [getPostAuthor_owner s userId postId p hfind hown]
  simp [hst]

/-- Witness for C3 at a concrete store: publishing with status draft
fails with IncorrectData and leaves the store as it was. -/
theorem publish_non_published_fails_unchanged_witness :
    PosterService.PublishPost ⟨[⟨1, 7, "k", "T", "C", 5, 5, PostStatus.draft⟩], []⟩ 7 1
        ⟨PostStatus.draft⟩
      = (Except.error Err.incorrectData,
         ⟨[⟨1, 7, "k", "T", "C", 5, 5, PostStatus.draft⟩], []⟩) :=
  publish_non_published_fails_unchanged _ 7 1 _
    ⟨1, 7, "k", "T", "C", 5, 5, PostStatus.draft⟩ rfl rfl (by decide)

/-- C4: every one of EditPost, PublishPost, AddImage and DeleteImage
invoked by a user who is not the post's author fails with NoAccess and
mutates neither the relational store nor the object store. -/
theorem non_author_mutations_no_access
    (s : Store) (b : BlobStore) (userId postId imageId newImgId : UUID)
    (now : Timestamp) (ereq : EditPostRequest) (preq : PublishPostRequest)
    (putOk insertOk rowOk blobOk : Bool) (p : PostDB)
    (hfind : s.posts.find? (fun q => q.postId == postId) = some p)
    (hown : p.authorId ≠ userId) :
    PosterService.EditPost s userId postId ereq = (Except.error Err.noAccess, s)
    ∧ PosterService.PublishPost s userId postId preq = (Except.error Err.noAccess, s)
    ∧ PosterService.AddImage s b putOk insertOk userId postId newImgId now
        = (Except.error Err.noAccess, s, b)
    ∧ PosterService.DeleteImage s b rowOk blobOk userId postId imageId
        = (Except.error Err.noAccess, s, b) := by
  have hga := getPostAuthor_not_owner s userId postId p hfind hown
  refine ⟨?_, ?_, ?_, ?_⟩
  · unfold PosterService.EditPost
    rw [hga]
  · unfold PosterService.PublishPost
    rw [hga]
  · unfold PosterService.AddImage
    rw [hga]
  · unfold PosterService.DeleteImage
    rw [hga]

/-- Witness for C4 at a concrete store: user 8 attacks the post of
author 7 and every operation fails with NoAccess leaving both stores
unchanged. -/
theorem non_author_mutations_no_access_witness :
    PosterService.EditPost ⟨[⟨1, 7, "k", "T", "C", 5, 5, PostStatus.draft⟩], []⟩ 8 1 ⟨"X", "Y"⟩
      = (Except.error Err.noAccess, ⟨[⟨1, 7, "k", "T", "C", 5, 5, PostStatus.draft⟩], []⟩)
    ∧ PosterService.PublishPost ⟨[⟨1, 7, "k", "T", "C", 5, 5, PostStatus.draft⟩], []⟩ 8 1
        ⟨PostStatus.published⟩
      = (Except.error Err.noAccess, ⟨[⟨1, 7, "k", "T", "C", 5, 5, PostStatus.draft⟩], []⟩)
    ∧ PosterService.AddImage ⟨[⟨1, 7, "k", "T", "C", 5, 5, PostStatus.draft⟩], []⟩ ⟨[]⟩
        true true 8 1 33 9
      = (Except.error Err.noAccess, ⟨[⟨1, 7, "k", "T", "C", 5, 5, PostStatus.draft⟩], []⟩, ⟨[]⟩)
    ∧ PosterService.DeleteImage ⟨[⟨1, 7, "k", "T", "C", 5, 5, PostStatus.draft⟩], []⟩ ⟨[]⟩
        true true 8 1 33
      = (Except.error Err.noAccess, ⟨[⟨1, 7, "k", "T", "C", 5, 5, PostStatus.draft⟩], []⟩, ⟨[]⟩) :=
  non_author_mutations_no_access _ _ 8 1 33 33 9 ⟨"X", "Y"⟩ ⟨PostStatus.published⟩
    true true true true ⟨1, 7, "k", "T", "C", 5, 5, PostStatus.draft⟩ rfl (by decide)

/-- C9: the failure observable through LoginHandler when the email has
no row is identical to the failure when the email exists but the
password check fails — both runs answer 403 with the same fixed body,
so login cannot be used to enumerate registered emails. -/
theorem login_failures_indistinguishable
    (hc1 hc2 : String → String → Bool) (st1 st2 : AuthState) (now1 now2 : Timestamp)
    (e1 p1 e2 p2 : String) (u : AuthUser)
    (h1 : AuthService.findUserByEmail st1 e1 = none)
    (h2 : AuthService.findUserByEmail st2 e2 = some u)
    (h3 : hc2 u.passwordHash p2 = false) :
    AuthController.LoginHandler hc1 st1 now1 e1 p1
      = AuthController.LoginHandler hc2 st2 now2 e2 p2
    ∧ AuthController.LoginHandler hc1 st1 now1 e1 p1
      = HttpOut.fail 403 "Email or password incorrect\n" := by
  have hA : AuthController.LoginHandler hc1 st1 now1 e1 p1
      = HttpOut.fail 403 "Email or password incorrect\n" := by
    unfold AuthController.LoginHandler AuthService.LoginUser
    rw [h1]
    rfl
  have hB : AuthController.LoginHandler hc2 st2 now2 e2 p2
      = HttpOut.fail 403 "Email or password incorrect\n" := by
    unfold AuthController.LoginHandler AuthService.LoginUser
    rw [h2]
    simp [h3]
  exact ⟨hA.trans hB.symm, hA⟩

/-- Witness for C9: against a store holding only user a at x dot com,
the login failure for an unknown email equals the failure for the known
email with a wrong password. -/
theorem login_failures_indistinguishable_witness :
    AuthController.LoginHandler (fun h q => h == q)
        ⟨[⟨5, "a@x.com", "pw", Role.author, ⟨0, 0, 0⟩, 0⟩], 10⟩ 0 "b@x.com" "pw"
      = AuthController.LoginHandler (fun h q => h == q)
        ⟨[⟨5, "a@x.com", "pw", Role.author, ⟨0, 0, 0⟩, 0⟩], 10⟩ 0 "a@x.com" "wrong"
    ∧ AuthController.LoginHandler (fun h q => h == q)
        ⟨[⟨5, "a@x.com", "pw", Role.author, ⟨0, 0, 0⟩, 0⟩], 10⟩ 0 "b@x.com" "pw"
      = HttpOut.fail 403 "Email or password incorrect\n" :=
  login_failures_indistinguishable (fun h q => h == q) (fun h q => h == q)
    ⟨[⟨5, "a@x.com", "pw", Role.author, ⟨0, 0, 0⟩, 0⟩], 10⟩
    ⟨[⟨5, "a@x.com", "pw", Role.author, ⟨0, 0, 0⟩, 0⟩], 10⟩ 0 0
    "b@x.com" "pw" "a@x.com" "wrong" ⟨5, "a@x.com", "pw", Role.author, ⟨0, 0, 0⟩, 0⟩
    rfl rfl rfl

/-- C10: DeleteImage checks ownership only against the named post and
deletes the image row by its id alone: for a user who owns the named
post, the row with that image id is deleted (and its blob removed) even
though the row's post id references a different post. -/
theorem delete_image_ignores_row_post
    (s : Store) (b : BlobStore) (userId postId imageId : UUID)
    (p : PostDB) (img : ImageDB)
    (hfind : s.posts.find? (fun q => q.postId == postId) = some p)
    (hown : p.authorId = userId)
    (himg : s.images.find? (fun i => i.imageId == imageId) = some img)
    (hother : img.postId ≠ postId) :
    PosterService.DeleteImage s b true true userId postId imageId
      = (Except.ok ⟨imageId⟩,
         { s with images := s.images.filter (fun i => !(i.imageId == imageId)) },
         ⟨b.objects.filter (fun o => !(o == PosterService.objectNameOf imageId))⟩) := by
  unfold PosterService.DeleteImage PostgresRepository.DeleteImage MinIORepository.DeleteImage
  rw [getPostAuthor_owner s userId postId p hfind hown]
  simp [himg]

/-- Witness for C10: user 7 owns post 1; image 33 belongs to post 2,
yet DeleteImage by user 7 against post 1 removes image 33 and its
blob. -/
theorem delete_image_ignores_row_post_witness :
    PosterService.DeleteImage
        ⟨[⟨1, 7, "k", "T", "C", 5, 5, PostStatus.draft⟩,
          ⟨2, 9, "k2", "U", "D", 5, 5, PostStatus.draft⟩],
         [⟨33, 2, "/images/33", 9⟩]⟩ ⟨["33"]⟩ true true 7 1 33
      = (Except.ok ⟨33⟩,
         ⟨[⟨1, 7, "k", "T", "C", 5, 5, PostStatus.draft⟩,
           ⟨2, 9, "k2", "U", "D", 5, 5, PostStatus.draft⟩], []⟩, ⟨[]⟩) := by
  have h := delete_image_ignores_row_post
    ⟨[⟨1, 7, "k", "T", "C", 5, 5, PostStatus.draft⟩,
      ⟨2, 9, "k2", "U", "D", 5, 5, PostStatus.draft⟩],
     [⟨33, 2, "/images/33", 9⟩]⟩ ⟨["33"]⟩ 7 1 33
    ⟨1, 7, "k", "T", "C", 5, 5, PostStatus.draft⟩ ⟨33, 2, "/images/33", 9⟩
    rfl rfl rfl (by decide)
  simpa using h

/-- C6: for an owning author, AddImage uploads the blob before the
metadata insert — when the upload fails nothing is inserted and both
stores are untouched — and when the metadata insert fails after a
successful upload, the error is returned with the images table
untouched while the just-uploaded blob stays in the object store: no
compensating deletion is performed on that path. -/
theorem add_image_upload_first_no_compensation
    (s : Store) (b : BlobStore) (userId postId imageId : UUID)
    (now : Timestamp) (insertOk : Bool) (p : PostDB)
    (hfind : s.posts.find? (fun q => q.postId == postId) = some p)
    (hown : p.authorId = userId) :
    PosterService.AddImage s b false insertOk userId postId imageId now
      = (Except.error Err.storeFailure, s, b)
    ∧ PosterService.AddImage s b true false userId postId imageId now
      = (Except.error Err.storeFailure, s,
         ⟨PosterService.objectNameOf imageId :: b.objects⟩) := by
  have hga := getPostAuthor_owner s userId postId p hfind hown
  constructor
  · unfold PosterService.AddImage MinIORepository.PutImage
    rw [hga]
    rfl
  · unfold PosterService.AddImage MinIORepository.PutImage PostgresRepository.CreateImage
    rw [hga]
    rfl

/-- Witness for C6 at a concrete store owned by user 7: a failed upload
leaves everything unchanged, and a failed insert after a successful
upload leaves the blob named 33 stored with no matching image row. -/
theorem add_image_upload_first_no_compensation_witness :
    PosterService.AddImage ⟨[⟨1, 7, "k", "T", "C", 5, 5, PostStatus.draft⟩], []⟩ ⟨[]⟩
        false true 7 1 33 9
      = (Except.error Err.storeFailure,
         ⟨[⟨1, 7, "k", "T", "C", 5, 5, PostStatus.draft⟩], []⟩, ⟨[]⟩)
    ∧ PosterService.AddImage ⟨[⟨1, 7, "k", "T", "C", 5, 5, PostStatus.draft⟩], []⟩ ⟨[]⟩
        true false 7 1 33 9
      = (Except.error Err.storeFailure,
         ⟨[⟨1, 7, "k", "T", "C", 5, 5, PostStatus.draft⟩], []⟩,
         ⟨[PosterService.objectNameOf 33]⟩) :=
  add_image_upload_first_no_compensation
    ⟨[⟨1, 7, "k", "T", "C", 5, 5, PostStatus.draft⟩], []⟩ ⟨[]⟩ 7 1 33 9 true
    ⟨1, 7, "k", "T", "C", 5, 5, PostStatus.draft⟩ rfl rfl

/-- C7: for an owning author, DeleteImage removes the metadata row
before the blob: when the row deletion fails both stores are untouched;
when the row deletion succeeds the row is gone whatever the blob
deletion does — a failed blob deletion returns the error with the row
already deleted and the blob still stored (an accepted orphan), and a
successful one removes both.  Hence no outcome keeps a metadata row
referencing a blob this operation removed. -/
theorem delete_image_row_before_blob
    (s : Store) (b : BlobStore) (userId postId imageId : UUID)
    (blobOk : Bool) (p : PostDB) (img : ImageDB)
    (hfind : s.posts.find? (fun q => q.postId == postId) = some p)
    (hown : p.authorId = userId)
    (himg : s.images.find? (fun i => i.imageId == imageId) = some img) :
    PosterService.DeleteImage s b false blobOk userId postId imageId
      = (Except.error Err.storeFailure, s, b)
    ∧ PosterService.DeleteImage s b true false userId postId imageId
      = (Except.error Err.storeFailure,
         { s with images := s.images.filter (fun i => !(i.imageId == imageId)) }, b)
    ∧ PosterService.DeleteImage s b true true userId postId imageId
      = (Except.ok ⟨imageId⟩,
         { s with images := s.images.filter (fun i => !(i.imageId == imageId)) },
         ⟨b.objects.filter (fun o => !(o == PosterService.objectNameOf imageId))⟩) := by
  have hga := getPostAuthor_owner s userId postId p hfind hown
  refine ⟨?_, ?_, ?_⟩
  · unfold PosterService.DeleteImage PostgresRepository.DeleteImage
    rw [hga]
    rfl
  · unfold PosterService.DeleteImage PostgresRepository.DeleteImage MinIORepository.DeleteImage
    rw [hga]
    simp [himg]
  · unfold PosterService.DeleteImage PostgresRepository.DeleteImage MinIORepository.DeleteImage
    rw [hga]
    simp [himg]

/-- Witness for C7 at a concrete store: image 33 of post 1, owned by
user 7; the three outcomes of the two deletion calls are as stated. -/
theorem delete_image_row_before_blob_witness :
    PosterService.DeleteImage ⟨[⟨1, 7, "k", "T", "C", 5, 5, PostStatus.draft⟩],
        [⟨33, 1, "/images/33", 9⟩]⟩ ⟨["33"]⟩ false true 7 1 33
      = (Except.error Err.storeFailure,
         ⟨[⟨1, 7, "k", "T", "C", 5, 5, PostStatus.draft⟩], [⟨33, 1, "/images/33", 9⟩]⟩, ⟨["33"]⟩)
    ∧ PosterService.DeleteImage ⟨[⟨1, 7, "k", "T", "C", 5, 5, PostStatus.draft⟩],
        [⟨33, 1, "/images/33", 9⟩]⟩ ⟨["33"]⟩ true false 7 1 33
      = (Except.error Err.storeFailure,
         ⟨[⟨1, 7, "k", "T", "C", 5, 5, PostStatus.draft⟩],
          ([⟨33, 1, "/images/33", 9⟩] : List ImageDB).filter (fun i => !(i.imageId == 33))⟩,
         ⟨["33"]⟩)
    ∧ PosterService.DeleteImage ⟨[⟨1, 7, "k", "T", "C", 5, 5, PostStatus.draft⟩],
        [⟨33, 1, "/images/33", 9⟩]⟩ ⟨["33"]⟩ true true 7 1 33
      = (Except.ok ⟨33⟩,
         ⟨[⟨1, 7, "k", "T", "C", 5, 5, PostStatus.draft⟩],
          ([⟨33, 1, "/images/33", 9⟩] : List ImageDB).filter (fun i => !(i.imageId == 33))⟩,
         ⟨(["33"] : List String).filter (fun o => !(o == PosterService.objectNameOf 33))⟩) :=
  delete_image_row_before_blob
    ⟨[⟨1, 7, "k", "T", "C", 5, 5, PostStatus.draft⟩], [⟨33, 1, "/images/33", 9⟩]⟩
    ⟨["33"]⟩ 7 1 33 true
    ⟨1, 7, "k", "T", "C", 5, 5, PostStatus.draft⟩ ⟨33, 1, "/images/33", 9⟩ rfl rfl rfl

/-- Counterexample to C8 as stated: on a concrete store a successful
EditPost by the owner rewrites the title yet leaves the stored
updated_at at its creation value 5 — the UPDATE statement does not set
updated_at and the schema defines no trigger, so the modification
timestamp is not updated. -/
theorem edit_post_timestamp_not_bumped :
    (PosterService.EditPost ⟨[⟨1, 7, "k", "T", "C", 5, 5, PostStatus.draft⟩], []⟩ 7 1
        ⟨"T2", "C2"⟩).2.posts.map PostDB.title = ["T2"]
    ∧ (PosterService.EditPost ⟨[⟨1, 7, "k", "T", "C", 5, 5, PostStatus.draft⟩], []⟩ 7 1
        ⟨"T2", "C2"⟩).2.posts.map PostDB.updatedAt = [5] :=
  ⟨rfl, rfl⟩

/-- C8 amended: for an owning author (the post id occurring on a single
row), EditPost updates only the title and content of that row and
preserves every other field — post id, author id, idempotency key,
created_at, the current status, and also updated_at, which is left
unchanged rather than bumped. -/
theorem edit_post_frame
    (s : Store) (userId postId : UUID) (req : EditPostRequest) (p : PostDB)
    (hfind : s.posts.find? (fun q => q.postId == postId) = some p)
    (hown : p.authorId = userId)
    (huniq : ∀ q ∈ s.posts, q.postId = postId → q = p) :
    (PosterService.EditPost s userId postId req).2.posts
      = s.posts.map (fun q =>
          if q.postId == postId
          then { q with title := req.title, content := req.content }
          else q)
    ∧ (PosterService.EditPost s userId postId req).1
      = Except.ok ⟨p.postId, p.authorId, p.idempotencyKey, req.title, req.content,
          p.status, p.createdAt, p.updatedAt⟩ := by
  have hga := getPostAuthor_owner s userId postId p hfind hown
  unfold PosterService.EditPost PostgresRepository.UpdatePost
  rw [hga, hfind]
  refine ⟨?_, rfl⟩
  refine List.map_congr_left ?_
  intro q hq
  by_cases hqp : q.postId = postId
  · have hq' : q = p := huniq q hq hqp
    subst hq'
    simp [hqp, PostgresRepository.updatePostRow]
  · simp [hqp]

/-- Witness for C8 at a concrete store: the single row keeps id 1,
author 7, key k, created_at 5, updated_at 5 and status draft while
title and content become the requested values. -/
theorem edit_post_frame_witness :
    (PosterService.EditPost ⟨[⟨1, 7, "k", "T", "C", 5, 5, PostStatus.draft⟩], []⟩ 7 1
        ⟨"T2", "C2"⟩).2.posts
      = ([⟨1, 7, "k", "T", "C", 5, 5, PostStatus.draft⟩] : List PostDB).map (fun q =>
          if q.postId == 1
          then { q with title := "T2", content := "C2" }
          else q)
    ∧ (PosterService.EditPost ⟨[⟨1, 7, "k", "T", "C", 5, 5, PostStatus.draft⟩], []⟩ 7 1
        ⟨"T2", "C2"⟩).1
      = Except.ok ⟨1, 7, "k", "T2", "C2", PostStatus.draft, 5, 5⟩ :=
  edit_post_frame _ 7 1 ⟨"T2", "C2"⟩ ⟨1, 7, "k", "T", "C", 5, 5, PostStatus.draft⟩
    rfl rfl (by decide)

/-- Evaluation of C1's failing input: when the idempotency-key lookup
sees no row but a concurrent identical request commits its insert
before ours (the interference below), the unique-constraint violation
raised by the insert surfaces to the caller as
ErrorRepositoryUserAlreadyExsist, which is a different error from
ErrorKeyIdempotencyAlreadyUsed — the race path is not translated to
the idempotency outcome. -/
theorem create_post_race_not_translated :
    (ReaderService.NewPost
        (fun s => { s with posts := s.posts ++ [⟨1, 9, "k1", "w", "w", 0, 0, PostStatus.draft⟩] })
        ⟨[], []⟩ 2 0 7 ⟨"k1", "t", "c"⟩).1
      = Except.error Err.userAlreadyExists
    ∧ Err.userAlreadyExists ≠ Err.keyIdempotencyAlreadyUsed :=
  ⟨rfl, by decide⟩

section StateMachine

/-- Status cases of a lookup into an unchanged posts table. -/
lemma status_cases_of_unchanged (l : List PostDB) (pid : UUID) (p' : PostDB)
    (R : PostDB → Prop)
    (hfind : l.find? (fun q => q.postId == pid) = some p') :
    (l.find? (fun q => q.postId == pid) = none → p'.status = PostStatus.draft)
    ∧ (∀ p, l.find? (fun q => q.postId == pid) = some p → p'.status = p.status ∨ R p) := by
  constructor
  · intro h
    rw [h] at hfind
    cases hfind
  · intro p hp
    rw [hp] at hfind
    have hpp : p = p' := by
      injection hfind
    subst hpp
    exact Or.inl rfl

/-- The conditional row updater of UpdatePost preserves post ids. -/
lemma updater_preserves_postId (pid : UUID) (t c : String) (st : PostStatus)
    (q : PostDB) :
    ((fun q => if q.postId == pid then PostgresRepository.updatePostRow q t c st else q) q).postId
      = q.postId := by
  by_cases h : (q.postId == pid) = true
  · simp [h, PostgresRepository.updatePostRow]
  · simp [h]

end StateMachine

/-- C5: Post.status obeys the state machine on draft and published:
every row a core operation creates starts as draft, and on every
existing row an operation either leaves the status unchanged or moves
it from draft to published, the latter only for a PublishPost on that
post requesting exactly published — in particular nothing moves a post
out of published. -/
theorem post_status_state_machine
    (s : Store) (op : Op) (pid : UUID) (p' : PostDB)
    (hfind : (applyOp s op).posts.find? (fun q => q.postId == pid) = some p') :
    (s.posts.find? (fun q => q.postId == pid) = none → p'.status = PostStatus.draft)
    ∧ (∀ p, s.posts.find? (fun q => q.postId == pid) = some p →
        p'.status = p.status
        ∨ (p.status = PostStatus.draft ∧ p'.status = PostStatus.published
           ∧ ∃ u r, op = Op.publish u pid r ∧ r.status = PostStatus.published)) := by
  cases op with
  | create newId now authorId req =>
    cases hk : s.posts.find? (fun p => p.idempotencyKey == req.idempotencyKey) with
    | some w =>
      have hstore : applyOp s (Op.create newId now authorId req) = s := by
        simp only [applyOp]
        unfold ReaderService.NewPost PostgresRepository.GetPostByIdempotencyKey
        rw [hk]
      rw [hstore] at hfind
      exact status_cases_of_unchanged _ _ _ _ hfind
    | none =>
      cases ha : s.posts.any
          (fun p => p.idempotencyKey == req.idempotencyKey || p.postId == newId) with
      | true =>
        have hstore : applyOp s (Op.create newId now authorId req) = s := by
          simp only [applyOp]
          unfold ReaderService.NewPost PostgresRepository.GetPostByIdempotencyKey
            PostgresRepository.CreatePost
          rw [hk]
          simp [ha]
        rw [hstore] at hfind
        exact status_cases_of_unchanged _ _ _ _ hfind
      | false =>
        have hstore : applyOp s (Op.create newId now authorId req)
            = { s with posts := s.posts ++
                [⟨newId, authorId, req.idempotencyKey, req.title, req.content, now, now,
                  PostStatus.draft⟩] } := by
          simp only [applyOp]
          unfold ReaderService.NewPost PostgresRepository.GetPostByIdempotencyKey
            PostgresRepository.CreatePost
          rw [hk]
          simp [ha]
        rw [hstore] at hfind
        simp only [List.find?_append] at hfind
        constructor
        · intro hnone
          rw [hnone] at hfind
          simp only [Option.none_or] at hfind
          by_cases hid : (newId == pid) = true
          · simp only [List.find?_cons, List.find?_nil, hid] at hfind
            injection hfind with h
            rw [← h]
          · simp only [List.find?_cons, List.find?_nil, hid] at hfind
            cases hfind
        · intro p hp
          rw [hp] at hfind
          simp only [Option.or_some] at hfind
          have hpp : p = p' := by injection hfind
          subst hpp
          exact Or.inl rfl
  | edit userId postId req =>
    cases hg : s.posts.find? (fun q => q.postId == postId) with
    | none =>
      have hstore : applyOp s (Op.edit userId postId req) = s := by
        simp only [applyOp]
        unfold PosterService.EditPost PosterService.getPostAuthor
          PostgresRepository.GetPostById
        rw [hg]
      rw [hstore] at hfind
      exact status_cases_of_unchanged _ _ _ _ hfind
    | some postDB =>
      by_cases howner : postDB.authorId = userId
      · have hstore : applyOp s (Op.edit userId postId req)
            = { s with posts := s.posts.map (fun q =>
                if q.postId == postId
                then PostgresRepository.updatePostRow q req.title req.content postDB.status
                else q) } := by
          simp only [applyOp]
          unfold PosterService.EditPost PosterService.getPostAuthor
            PostgresRepository.GetPostById PostgresRepository.UpdatePost
          rw [hg]
          simp [howner]
        rw [hstore] at hfind
        simp only [find?_map_of_key PostDB.postId _
          (updater_preserves_postId postId req.title req.content postDB.status)] at hfind
        constructor
        · intro hnone
          rw [hnone] at hfind
          cases hfind
        · intro p hp
          rw [hp] at hfind
          simp only [Option.map_some'] at hfind
          by_cases hqp : (p.postId == postId) = true
          · have hb := List.find?_some hp
            have hpid : p.postId = pid := by simpa using hb
            have hpostId : p.postId = postId := by simpa using hqp
            have hpe : pid = postId := by rw [← hpid, hpostId]
            subst hpe
            have hsame : postDB = p := by
              rw [hg] at hp
              exact Option.some.inj hp
            subst hsame
            simp only [hqp, if_true] at hfind
            injection hfind with h2
            refine Or.inl ?_
            rw [← h2]
            rfl
          · simp only [hqp, Bool.false_eq_true, if_false] at hfind
            injection hfind with h2
            subst h2
            exact Or.inl rfl
      · have hstore : applyOp s (Op.edit userId postId req) = s := by
          simp only [applyOp]
          unfold PosterService.EditPost PosterService.getPostAuthor
            PostgresRepository.GetPostById
          rw [hg]
          simp [howner]
        rw [hstore] at hfind
        exact status_cases_of_unchanged _ _ _ _ hfind
  | publish userId postId req =>
    cases hg : s.posts.find? (fun q => q.postId == postId) with
    | none =>
      have hstore : applyOp s (Op.publish userId postId req) = s := by
        simp only [applyOp]
        unfold PosterService.PublishPost PosterService.getPostAuthor
          PostgresRepository.GetPostById
        rw [hg]
      rw [hstore] at hfind
      exact status_cases_of_unchanged _ _ _ _ hfind
    | some postDB =>
      by_cases howner : postDB.authorId = userId
      · by_cases hpub : req.status = PostStatus.published
        · have hstore : applyOp s (Op.publish userId postId req)
              = { s with posts := s.posts.map (fun q =>
                  if q.postId == postId
                  then PostgresRepository.updatePostRow q postDB.title postDB.content req.status
                  else q) } := by
            simp only [applyOp]
            unfold PosterService.PublishPost PosterService.getPostAuthor
              PostgresRepository.GetPostById PostgresRepository.UpdatePost
            rw [hg]
            simp [howner, hpub]
          rw [hstore] at hfind
          simp only [find?_map_of_key PostDB.postId _
            (updater_preserves_postId postId postDB.title postDB.content req.status)] at hfind
          constructor
          · intro hnone
            rw [hnone] at hfind
            cases hfind
          · intro p hp
            rw [hp] at hfind
            simp only [Option.map_some'] at hfind
            by_cases hqp : (p.postId == postId) = true
            · have hb := List.find?_some hp
              have hpid : p.postId = pid := by simpa using hb
              have hpostId : p.postId = postId := by simpa using hqp
              have hpe : pid = postId := by rw [← hpid, hpostId]
              subst hpe
              simp only [hqp, if_true] at hfind
              injection hfind with h2
              cases hstat : p.status with
              | draft =>
                refine Or.inr ⟨rfl, ?_, userId, req, rfl, hpub⟩
                rw [← h2]
                simp [PostgresRepository.updatePostRow, hpub]
              | published =>
                refine Or.inl ?_
                rw [← h2]
                simp [PostgresRepository.updatePostRow, hpub]
            · simp only [hqp, Bool.false_eq_true, if_false] at hfind
              injection hfind with h2
              subst h2
              exact Or.inl rfl
        · have hstore : applyOp s (Op.publish userId postId req) = s := by
            simp only [applyOp]
            unfold PosterService.PublishPost PosterService.getPostAuthor
              PostgresRepository.GetPostById
            rw [hg]
            simp [howner, hpub]
          rw [hstore] at hfind
          exact status_cases_of_unchanged _ _ _ _ hfind
      · have hstore : applyOp s (Op.publish userId postId req) = s := by
          simp only [applyOp]
          unfold PosterService.PublishPost PosterService.getPostAuthor
            PostgresRepository.GetPostById
          rw [hg]
          simp [howner]
        rw [hstore] at hfind
        exact status_cases_of_unchanged _ _ _ _ hfind

/-- Witness for C5: publishing the draft post 1 as its author 7 with
requested status published yields the published row, and the state
machine theorem instantiates to it. -/
theorem post_status_state_machine_witness :
    ((⟨[⟨1, 7, "k", "T", "C", 5, 5, PostStatus.draft⟩], []⟩ : Store).posts.find?
        (fun q => q.postId == 1) = none
      → (⟨1, 7, "k", "T", "C", 5, 5, PostStatus.published⟩ : PostDB).status = PostStatus.draft)
    ∧ (∀ p, (⟨[⟨1, 7, "k", "T", "C", 5, 5, PostStatus.draft⟩], []⟩ : Store).posts.find?
        (fun q => q.postId == 1) = some p →
        (⟨1, 7, "k", "T", "C", 5, 5, PostStatus.published⟩ : PostDB).status = p.status
        ∨ (p.status = PostStatus.draft
           ∧ (⟨1, 7, "k", "T", "C", 5, 5, PostStatus.published⟩ : PostDB).status
              = PostStatus.published
           ∧ ∃ u r, Op.publish 7 1 ⟨PostStatus.published⟩ = Op.publish u 1 r
              ∧ r.status = PostStatus.published)) :=
  post_status_state_machine ⟨[⟨1, 7, "k", "T", "C", 5, 5, PostStatus.draft⟩], []⟩
    (Op.publish 7 1 ⟨PostStatus.published⟩) 1
    ⟨1, 7, "k", "T", "C", 5, 5, PostStatus.published⟩ rfl

section AuthLemmas

/-- The refresh-token updater of UpdateRefreshToken preserves user
ids. -/
lemma auth_updater_preserves_userId (idv : UUID) (tok : RefreshTok) (v : AuthUser) :
    ((fun u => if u.userId == idv then { u with refreshToken := tok } else u) v).userId
      = v.userId := by
  by_cases h : (v.userId == idv) = true
  · simp [h]
  · simp [h]

/-- Successful login issues the refresh token with the current nonce
and advances the nonce counter. -/
lemma loginUser_fresh_nonce
    (hashCheck : String → String → Bool) (st0 st1 : AuthState)
    (now1 : Timestamp) (email password : String) (res : LoginResult)
    (h : AuthService.LoginUser hashCheck st0 now1 email password = (Except.ok res, st1)) :
    res.refreshTok.nonce = st0.nextNonce ∧ st1.nextNonce = st0.nextNonce + 1 := by
  unfold AuthService.LoginUser at h
  split at h
  · simp at h
  · split at h
    · simp at h
    · dsimp only at h
      split at h
      · simp at h
      · rw [Prod.mk.injEq] at h
        obtain ⟨h1, h2⟩ := h
        have h1 := Except.ok.inj h1
        exact ⟨by rw [← h1], by rw [← h2]⟩

/-- Successful refresh overwrites the stored token of the claimed
identity with a token carrying the current nonce, and advances the
nonce counter. -/
lemma refreshToken_rotates
    (st st2 : AuthState) (now : Timestamp) (tok a : RefreshTok)
    (h : AuthService.RefreshToken st now tok = (Except.ok a, st2)) :
    AuthService.GetRefreshToken st2 tok.identity
      = Except.ok ⟨tok.identity, st.nextNonce, now + AuthService.refreshTTL⟩
    ∧ st2.nextNonce = st.nextNonce + 1 := by
  unfold AuthService.RefreshToken at h
  split at h
  · simp at h
  · split at h
    · simp at h
    · split at h
      · simp at h
      · dsimp only at h
        split at h
        · simp at h
        · rename_i stored hgs hne hx st2a hupd
          rw [Prod.mk.injEq] at h
          obtain ⟨h1, h2⟩ := h
          obtain ⟨u1, hu1, hstored⟩ :
              ∃ u1, st.users.find? (fun v => v.userId == tok.identity) = some u1
                ∧ u1.refreshToken = stored := by
            unfold AuthService.GetRefreshToken at hgs
            cases hf : st.users.find? (fun v => v.userId == tok.identity) with
            | none =>
              rw [hf] at hgs
              cases hgs
            | some u1 =>
              rw [hf] at hgs
              exact ⟨u1, rfl, Except.ok.inj hgs⟩
          have hst2a : st2a.users = st.users.map (fun u =>
              if u.userId == tok.identity
              then { u with refreshToken :=
                ⟨tok.identity, st.nextNonce, now + AuthService.refreshTTL⟩ }
              else u) := by
            unfold AuthService.UpdateRefreshToken at hupd
            split at hupd
            · have := Except.ok.inj hupd
              rw [← this]
            · cases hupd
          refine ⟨?_, by rw [← h2]⟩
          rw [← h2]
          unfold AuthService.GetRefreshToken
          dsimp only
          rw [hst2a]
          rw [find?_map_of_key AuthUser.userId _
            (auth_updater_preserves_userId tok.identity
              ⟨tok.identity, st.nextNonce, now + AuthService.refreshTTL⟩), hu1]
          have hm := List.find?_some hu1
          simp only [Option.map_some', hm, if_true]

/-- Refresh rejects any token whose nonce differs from the one stored
for the identity it claims. -/
lemma refreshToken_replay_fails
    (st : AuthState) (now : Timestamp) (tok stored : RefreshTok)
    (hg : AuthService.GetRefreshToken st tok.identity = Except.ok stored)
    (hne : stored.nonce ≠ tok.nonce) :
    (AuthService.RefreshToken st now tok).1 = Except.error Err.invalidToken := by
  unfold AuthService.RefreshToken
  by_cases hexp : tok.expiry < now
  · rw [if_pos hexp]
  · rw [if_neg hexp, hg]
    have hst : stored ≠ tok := fun he => hne (by rw [he])
    simp [hst]

end AuthLemmas

/-- C2: after a successful Login returning a refresh token and a
successful Refresh with that token (which rotates the stored token),
presenting the same refresh token again fails with InvalidToken:
Refresh accepts a token only when it equals the one currently stored
on the user row, and the rotation replaced it. -/
theorem refresh_token_single_use
    (hashCheck : String → String → Bool) (st0 st1 st2 : AuthState)
    (now1 now2 now3 : Timestamp) (email password : String)
    (res : LoginResult) (a : RefreshTok)
    (hlogin : AuthService.LoginUser hashCheck st0 now1 email password = (Except.ok res, st1))
    (hrefresh : AuthService.RefreshToken st1 now2 res.refreshTok = (Except.ok a, st2)) :
    (AuthService.RefreshToken st2 now3 res.refreshTok).1 = Except.error Err.invalidToken := by
  obtain ⟨hn, hs1⟩ := loginUser_fresh_nonce hashCheck st0 st1 now1 email password res hlogin
  obtain ⟨hg2, hs2⟩ := refreshToken_rotates st1 st2 now2 res.refreshTok a hrefresh
  refine refreshToken_replay_fails st2 now3 res.refreshTok _ hg2 ?_
  show st1.nextNonce ≠ res.refreshTok.nonce
  rw [hs1, hn]
  exact Nat.succ_ne_self st0.nextNonce

/-- Witness for C2: the concrete login of user 5 followed by one
successful refresh; replaying the login-issued token against the
post-rotation state fails with InvalidToken. -/
theorem refresh_token_single_use_witness :
    (AuthService.RefreshToken
        ⟨[⟨5, "a@x", "pw", Role.author, ⟨5, 11, 604800⟩, 0⟩], 12⟩ 0
        (⟨5, ⟨5, 10, 604800⟩⟩ : LoginResult).refreshTok).1
      = Except.error Err.invalidToken :=
  refresh_token_single_use (fun h q => h == q)
    ⟨[⟨5, "a@x", "pw", Role.author, ⟨0, 0, 0⟩, 0⟩], 10⟩
    ⟨[⟨5, "a@x", "pw", Role.author, ⟨5, 10, 604800⟩, 0⟩], 11⟩
    ⟨[⟨5, "a@x", "pw", Role.author, ⟨5, 11, 604800⟩, 0⟩], 12⟩
    0 0 0 "a@x" "pw" ⟨5, ⟨5, 10, 604800⟩⟩ ⟨5, 11, 604800⟩ rfl rfl

end Blog
